import Mathlib

/-!
Shallow embedding of `src/util/Authentication.js` (node-easier-auth).

JavaScript strings are modelled as `List Char` (`JsStr`); a missing or empty
required argument is the empty list, matching JS falsiness of `""` /
`undefined` for the `!arg` precondition checks.  The knex store is a pure
record of two tables (`users`, `sessions`); each operation takes the store
state and returns an `Except String` result paired with the new state, where
`Except.error` models a thrown/rejected JS error.  Randomness
(`crypto.randomBytes`) is an oracle parameter `rng : Nat → List (Fin 256)`,
and the salt that `bcrypt.hash` draws internally is an oracle parameter too,
so every definition is a pure function of its inputs.

`bcrypt` is an external npm dependency, not code of this repository.
Modelled from the spec: an "adaptive one-way password hash with verify
function" whose output never retains the plaintext as the whole stored value;
we use an idealized collision-free encoding `"$2b$" ++ cost ++ "$" ++ salt ++
"/" ++ pwd` whose verify function checks the password against the digest
suffix, which gives `verify p (hash c s p) = true` and `hash c s p ≠ p`
(the hash is strictly longer than the password).
-/

/-- JavaScript strings, modelled as lists of characters. -/
abbrev JsStr := List Char

/-- The sixteen lowercase hex digits, the alphabet of `Buffer.toString("hex")`. -/
def hexChars : List Char := "0123456789abcdef".toList

/-- Hex digit for a value below 16. -/
def hexDigit (n : Nat) : Char := hexChars.getD n 'x'

/-- One byte rendered as two lowercase hex characters, as in
`Buffer.toString("hex")`. -/
def byteToHex (b : Fin 256) : JsStr := [hexDigit (b.val / 16), hexDigit (b.val % 16)]

/-- `crypto.randomBytes(n).toString("hex")`: each byte becomes two hex chars. -/
def bytesToHex (bs : List (Fin 256)) : JsStr := bs.flatMap byteToHex

/-- Modelled from the spec: the external `bcrypt.hash(pwd, cost)` primitive
(idealized, collision-free): the result records the cost, the internally
drawn salt and a digest from which the verify function can check `pwd`. -/
def bcryptHash (cost : Nat) (salt pwd : JsStr) : JsStr :=
  ('$' :: '2' :: 'b' :: '$' :: (toString cost).toList) ++ '$' :: salt ++ '/' :: pwd

/-- Modelled from the spec: the external `bcrypt.compare(pwd, hash)` verify
primitive; it checks `pwd` against the digest part of `hash`. -/
def bcryptCompare (pwd h : JsStr) : Bool := decide ('/' :: pwd <:+ h)

/-- JavaScript `String.prototype.split` with a single-character separator:
`"".split(sep) = [""]`, separators at the ends produce empty segments. -/
def jsSplit (sep : Char) : JsStr → List JsStr
  | [] => [[]]
  | c :: rest =>
    if c = sep then [] :: jsSplit sep rest
    else
      match jsSplit sep rest with
      | [] => [[c]]
      | seg :: segs => (c :: seg) :: segs

/-- A row of the `users` table: `{uuid, username, password}` where `password`
is the bcrypt hash string stored by `register`. -/
structure UserRow where
  uuid : JsStr
  username : JsStr
  password : JsStr
  deriving Repr, DecidableEq

/-- A row of the `sessions` table: `{session_id, token, uuid}` where `token`
is the stored token representation (bcrypt hash of the token, or its
plaintext when token hashing is disabled). -/
structure SessionRow where
  session_id : JsStr
  token : JsStr
  uuid : JsStr
  deriving Repr, DecidableEq

/-- The knex-backed store: the two tables the class touches. -/
structure DB where
  users : List UserRow
  sessions : List SessionRow
  deriving Repr, DecidableEq

/-- Constructor state of the `Authentication` class: whether a knex object was
supplied, and the `tokenHashing` flag (default `true` in the source). -/
structure Auth where
  hasKnex : Bool
  tokenHashing : Bool
  deriving Repr, DecidableEq

/-- Result of `register`: `{success: true}` or the duplicate-username
`{error: "An account with this username already exists"}` object. -/
inductive RegResult where
  | success
  | conflict
  deriving Repr, DecidableEq

/-- The error message thrown when the knex dependency is missing. -/
def knexMsg : String := "Knex has not been initiated in the AuthService class."

/-- `knex("users").where({username}).first()`. -/
def findUserByUsername (db : DB) (username : JsStr) : Option UserRow :=
  db.users.find? (fun u => u.username == username)

/-- `knex("sessions").where({session_id: sid}).first()`. -/
def findSessionById (db : DB) (sid : JsStr) : Option SessionRow :=
  db.sessions.find? (fun s => s.session_id == sid)

/-- `userExists(username)`: throws on a missing knex object or username,
otherwise `Boolean` of the row lookup. -/
def userExists (a : Auth) (db : DB) (username : JsStr) : Except String Bool :=
  if !a.hasKnex then .error knexMsg
  else if username.isEmpty then .error "Username must be provided"
  else .ok (findUserByUsername db username).isSome

/-- `register(username, pwdUnhashed)`: precondition checks, bcrypt-hash the
password with cost 12, conflict if the username exists, otherwise insert
`{uuid, username, password}`.  `uuid` (from `uuidv4()`) and the bcrypt salt
are oracle parameters. -/
def register (a : Auth) (uuid salt : JsStr) (db : DB) (username pwdUnhashed : JsStr) :
    Except String (RegResult × DB) :=
  if !a.hasKnex then .error knexMsg
  else if username.isEmpty || pwdUnhashed.isEmpty then
    .error "Username and password must be provided"
  else
    let password := bcryptHash 12 salt pwdUnhashed
    match userExists a db username with
    | .error e => .error e
    | .ok true => .ok (.conflict, db)
    | .ok false =>
        .ok (.success, { db with users := db.users ++ [⟨uuid, username, password⟩] })

/-- `login(username, password)`: precondition checks; look the user up; on a
missing user or a failed `bcrypt.compare` return `false` (modelled `none`);
otherwise draw `sid = randomBytes(8).hex` and `token = randomBytes(30).hex`,
store the token hashed with cost 10 (or in plaintext when `tokenHashing` is
off) and return the composite `sid ++ "." ++ token`. -/
def login (a : Auth) (rng : Nat → List (Fin 256)) (salt : JsStr) (db : DB)
    (username password : JsStr) : Except String (Option JsStr × DB) :=
  if !a.hasKnex then .error knexMsg
  else if username.isEmpty || password.isEmpty then
    .error "Username and password must be provided"
  else
    match findUserByUsername db username with
    | none => .ok (none, db)
    | some user =>
      if !bcryptCompare password user.password then .ok (none, db)
      else
        let sid := bytesToHex (rng 8)
        let token := bytesToHex (rng 30)
        let tokenHash := if a.tokenHashing then bcryptHash 10 salt token else token
        .ok (some (sid ++ '.' :: token),
          { db with sessions := db.sessions ++ [⟨sid, tokenHash, user.uuid⟩] })

/-- `verifyToken(tokenString)`: precondition checks; split on `"."` and
destructure `[sid, tok]` (so `tok` is `undefined` — `none` — when there is no
dot, and segments past the second are dropped); look the session up by `sid`;
compare `tok` against the stored representation with `bcrypt.compare` or JS
`==`.  `bcrypt.compare(undefined, h)` rejects with an error, while
`undefined == h` is simply false. -/
def verifyToken (a : Auth) (db : DB) (tokenString : JsStr) : Except String Bool :=
  if !a.hasKnex then .error knexMsg
  else if tokenString.isEmpty then .error "Token string must be provided"
  else
    let parts := jsSplit '.' tokenString
    let sid := parts.headD []
    let tok := parts.get? 1
    match findSessionById db sid with
    | none => .ok false
    | some sidMatch =>
      if a.tokenHashing then
        match tok with
        | none => .error "data and hash arguments required"
        | some t => .ok (bcryptCompare t sidMatch.token)
      else
        match tok with
        | none => .ok false
        | some t => .ok (t == sidMatch.token)

/-- `logout(sid)`: precondition checks, then
`knex("sessions").where({session_id: sid}).del()`, deleting every matching
row; the deleted-row count is ignored and nothing is returned. -/
def logout (a : Auth) (db : DB) (sid : JsStr) : Except String DB :=
  if !a.hasKnex then .error knexMsg
  else if sid.isEmpty then .error "SID must be provided"
  else .ok { db with sessions := db.sessions.filter (fun s => !(s.session_id == sid)) }

/-- `getUserIdFromSessionId(sid)`: precondition checks, then the session
lookup; returns the owning `uuid`, or `false` (modelled `none`) when the
session does not exist. -/
def getUserIdFromSessionId (a : Auth) (db : DB) (sid : JsStr) :
    Except String (Option JsStr) :=
  if !a.hasKnex then .error knexMsg
  else if sid.isEmpty then .error "Session ID must be provided"
  else .ok ((findSessionById db sid).map SessionRow.uuid)

/-- The context `express_middleware` attaches as `req.eauth.user` on success. -/
structure EAuthUser where
  username : JsStr
  id : JsStr
  token : JsStr
  deriving Repr, DecidableEq

/-- Outcome of the middleware: the single generic
`res.status(401).json({message: "Unauthorized"})` response, or `next()` with
the attached context. -/
inductive MwOutcome where
  | unauthorized
  | success (user : EAuthUser)
  deriving Repr, DecidableEq

/-- `express_middleware(req, res, next)`: extract the bearer token from
`req.headers.authorization` (`header?.split(" ")[1]`), verify it, resolve the
owner and its user row, and attach `{username, id, token}`; every failure
path — including any error thrown inside the `try` — collapses to the same
401 response.  `getUserIdFromSessionId` returning `false` makes the
`where("uuid", confirmedUuid)` lookup miss, hence 401. -/
def express_middleware (a : Auth) (db : DB) (authHeader : Option JsStr) : MwOutcome :=
  match authHeader.bind (fun h => (jsSplit ' ' h).get? 1) with
  | none => .unauthorized
  | some token =>
    if token.isEmpty then .unauthorized
    else
      match verifyToken a db token with
      | .error _ => .unauthorized
      | .ok false => .unauthorized
      | .ok true =>
        let sid := (jsSplit '.' token).headD []
        match getUserIdFromSessionId a db sid with
        | .error _ => .unauthorized
        | .ok none => .unauthorized
        | .ok (some confirmedUuid) =>
          match db.users.find? (fun u => u.uuid == confirmedUuid) with
          | none => .unauthorized
          | some user => .success ⟨user.username, confirmedUuid, token⟩

/-- A well-behaved `crypto.randomBytes` oracle: `randomBytes n` yields
exactly `n` bytes. -/
def GoodRng (rng : Nat → List (Fin 256)) : Prop := ∀ n, (rng n).length = n

/-! ### Concrete data used by witnesses and counterexamples -/

/-- A concrete `crypto.randomBytes` oracle: all-zero bytes. -/
def rngW : Nat → List (Fin 256) := fun n => List.replicate n 0

/-- A concrete bcrypt salt. -/
def saltW : JsStr := "sa".toList

/-- A concrete uuid. -/
def uuidW : JsStr := "u1".toList

/-- The identity row `register` stores for `("alice", "S3cret!")`. -/
def userW : UserRow := ⟨uuidW, "alice".toList, bcryptHash 12 saltW ("S3cret!".toList)⟩

/-- A store holding exactly the registered identity `alice` and no session. -/
def dbW : DB := ⟨[userW], []⟩

/-- The composite token a successful `login` returns under `rngW`. -/
def tokW : JsStr := bytesToHex (rngW 8) ++ '.' :: bytesToHex (rngW 30)

/-- The identity row `register` stores for `("bob", "pw")`. -/
def dbBob : DB := ⟨[⟨uuidW, "bob".toList, bcryptHash 12 saltW ("pw".toList)⟩], []⟩

/-! ### Helper lemmas about the embedded primitives -/

set_option maxRecDepth 8192 in
theorem byteToHex_mem (b : Fin 256) : ∀ c ∈ byteToHex b, c ∈ hexChars := by
  revert b; decide

theorem mem_hexChars_of_mem_bytesToHex {bs : List (Fin 256)} {c : Char}
    (h : c ∈ bytesToHex bs) : c ∈ hexChars := by
  simp only [bytesToHex, List.mem_flatMap] at h
  obtain ⟨b, _, hb⟩ := h
  exact byteToHex_mem b c hb

theorem dot_not_mem_bytesToHex (bs : List (Fin 256)) : '.' ∉ bytesToHex bs := by
  intro h
  have := mem_hexChars_of_mem_bytesToHex h
  revert this; decide

theorem length_bytesToHex (bs : List (Fin 256)) : (bytesToHex bs).length = 2 * bs.length := by
  induction bs with
  | nil => rfl
  | cons b rest ih =>
    simp only [bytesToHex, List.flatMap_cons, List.length_append] at *
    rw [ih]
    simp [byteToHex]
    omega

theorem bcryptCompare_hash (cost : Nat) (salt pwd : JsStr) :
    bcryptCompare pwd (bcryptHash cost salt pwd) = true := by
  simp only [bcryptCompare, bcryptHash, decide_eq_true_eq]
  exact ⟨('$' :: '2' :: 'b' :: '$' :: (toString cost).toList) ++ '$' :: salt,
    by simp [List.append_assoc]⟩

theorem bcryptHash_ne (cost : Nat) (salt pwd : JsStr) : bcryptHash cost salt pwd ≠ pwd := by
  intro h
  have := congrArg List.length h
  simp only [bcryptHash, List.length_append, List.length_cons] at this
  omega

theorem jsSplit_eq_single {sep : Char} {s : JsStr} (h : sep ∉ s) : jsSplit sep s = [s] := by
  induction s with
  | nil => rfl
  | cons c rest ih =>
    simp only [List.mem_cons, not_or] at h
    rw [jsSplit, if_neg (fun hh => h.1 hh.symm), ih h.2]

theorem jsSplit_append {sep : Char} {a b : JsStr} (h : sep ∉ a) :
    jsSplit sep (a ++ sep :: b) = a :: jsSplit sep b := by
  induction a with
  | nil => simp [jsSplit]
  | cons c rest ih =>
    simp only [List.mem_cons, not_or] at h
    rw [List.cons_append, jsSplit, if_neg (fun hh => h.1 hh.symm), ih h.2]

theorem findSessionById_append_fresh (db : DB) (row : SessionRow)
    (h : ∀ s ∈ db.sessions, s.session_id ≠ row.session_id) :
    findSessionById { db with sessions := db.sessions ++ [row] } row.session_id
      = some row := by
  show (db.sessions ++ [row]).find? (fun s => s.session_id == row.session_id) = some row
  rw [List.find?_append, List.find?_eq_none.mpr (fun x hx => by simp [h x hx])]
  simp

/-- C1: for a registered identity present in the store (a user row that
`login`'s lookup finds and whose stored hash verifies the secret), `login`
followed immediately by `verifyToken` on the returned composite token yields
`true`; the `Auth` configuration is arbitrary apart from a present knex
object, so this covers both the token-hashing and the plaintext mode.  The
freshness hypothesis rules out a colliding pre-existing `session_id`. -/
theorem C1_login_then_verify (a : Auth) (rng : Nat → List (Fin 256)) (salt : JsStr)
    (db : DB) (username password : JsStr) (u : UserRow)
    (hk : a.hasKnex = true)
    (hu : username.isEmpty = false) (hp : password.isEmpty = false)
    (hfind : findUserByUsername db username = some u)
    (hcmp : bcryptCompare password u.password = true)
    (hfresh : ∀ s ∈ db.sessions, s.session_id ≠ bytesToHex (rng 8)) :
    ∃ tok db2, login a rng salt db username password = Except.ok (some tok, db2) ∧
      verifyToken a db2 tok = Except.ok true := by
  have hsid : '.' ∉ bytesToHex (rng 8) := dot_not_mem_bytesToHex _
  have htk : '.' ∉ bytesToHex (rng 30) := dot_not_mem_bytesToHex _
  refine ⟨bytesToHex (rng 8) ++ '.' :: bytesToHex (rng 30),
    { db with sessions := db.sessions ++
        [⟨bytesToHex (rng 8),
          if a.tokenHashing then bcryptHash 10 salt (bytesToHex (rng 30))
          else bytesToHex (rng 30), u.uuid⟩] }, ?_, ?_⟩
  · simp [login, hk, hu, hp, hfind, hcmp]
  · have hne : (bytesToHex (rng 8) ++ '.' :: bytesToHex (rng 30)).isEmpty = false := by
      cases h : bytesToHex (rng 8) <;> simp [h]
    have hsplit : jsSplit '.' (bytesToHex (rng 8) ++ '.' :: bytesToHex (rng 30))
        = [bytesToHex (rng 8), bytesToHex (rng 30)] := by
      rw [jsSplit_append hsid, jsSplit_eq_single htk]
    have hlook := findSessionById_append_fresh db
      ⟨bytesToHex (rng 8),
        if a.tokenHashing then bcryptHash 10 salt (bytesToHex (rng 30))
        else bytesToHex (rng 30), u.uuid⟩ hfresh
    simp only [verifyToken, hk, Bool.not_true, Bool.false_eq_true, if_false, hne, hsplit]
    simp only [List.headD, List.get?, hlook]
    cases ht : a.tokenHashing <;> simp [ht, bcryptCompare_hash]

/-- Witness for C1: the concrete scenario, in hashing and plaintext mode. -/
theorem C1_login_then_verify_witness :
    (findUserByUsername dbW ("alice".toList) = some userW ∧
     bcryptCompare ("S3cret!".toList) userW.password = true ∧
     (∀ s ∈ dbW.sessions, s.session_id ≠ bytesToHex (rngW 8))) ∧
    (∃ tok db2, login ⟨true, true⟩ rngW saltW dbW ("alice".toList) ("S3cret!".toList) =
        Except.ok (some tok, db2) ∧ verifyToken ⟨true, true⟩ db2 tok = Except.ok true) ∧
    (∃ tok db2, login ⟨true, false⟩ rngW saltW dbW ("alice".toList) ("S3cret!".toList) =
        Except.ok (some tok, db2) ∧ verifyToken ⟨true, false⟩ db2 tok = Except.ok true) :=
  ⟨⟨by decide, by decide, by decide⟩,
   C1_login_then_verify ⟨true, true⟩ rngW saltW dbW ("alice".toList) ("S3cret!".toList)
     userW rfl (by decide) (by decide) (by decide) (by decide) (by decide),
   C1_login_then_verify ⟨true, false⟩ rngW saltW dbW ("alice".toList) ("S3cret!".toList)
     userW rfl (by decide) (by decide) (by decide) (by decide) (by decide)⟩

/-- C2 counterexample: `verifyToken` does not reject composites with more
than one `.`: `split(".")` keeps only the first two segments, so a token with
a third segment appended still verifies, in plaintext mode and in hashing
mode alike; the claim says it must return false for every store. -/
theorem C2_cex :
    (jsSplit '.' ("ab.cd.ef".toList)).length = 3 ∧
    verifyToken ⟨true, false⟩ ⟨[], [⟨"ab".toList, "cd".toList, uuidW⟩]⟩
      ("ab.cd.ef".toList) = Except.ok true ∧
    verifyToken ⟨true, true⟩
      ⟨[], [⟨"ab".toList, bcryptHash 10 saltW ("cd".toList), uuidW⟩]⟩
      ("ab.cd.ef".toList) = Except.ok true := by
  refine ⟨by decide, by rfl, by rfl⟩

/-- C2 (amended): on an input with no `.` segment separator, `verifyToken`
returns false whenever token hashing is disabled or no session row's id
equals the whole input (with hashing enabled and such a row present, the
underlying `bcrypt.compare(undefined, hash)` rejects instead of returning);
an input with more than one `.` is not rejected: only the first two segments
are used, so such an input can verify as true. -/
theorem C2_verify_malformed :
    (∀ (a : Auth) (db : DB) (s : JsStr), a.hasKnex = true → s.isEmpty = false →
      jsSplit '.' s = [s] →
      (a.tokenHashing = false ∨ findSessionById db s = none) →
      verifyToken a db s = Except.ok false) ∧
    (∃ (a : Auth) (db : DB) (s : JsStr), (jsSplit '.' s).length = 3 ∧
      verifyToken a db s = Except.ok true) := by
  constructor
  · intro a db s hk hne hnodot h
    simp only [verifyToken, hk, Bool.not_true, Bool.false_eq_true, if_false, hne, hnodot,
      List.headD_cons, List.get?_cons_succ, List.get?_nil]
    cases hfind : findSessionById db s with
    | none => rfl
    | some row =>
      rcases h with h | h
      · simp [h]
      · rw [hfind] at h; cases h
  · exact ⟨⟨true, false⟩, ⟨[], [⟨"gh".toList, "ij".toList, uuidW⟩]⟩, "gh.ij.kl".toList,
      by decide, by rfl⟩

/-- Witness for C2 (amended): a dot-free input against a store with no
matching session. -/
theorem C2_verify_malformed_witness :
    (jsSplit '.' ("zz".toList) = ["zz".toList]) ∧
    verifyToken ⟨true, true⟩ dbW ("zz".toList) = Except.ok false :=
  ⟨by decide, C2_verify_malformed.1 ⟨true, true⟩ dbW ("zz".toList) rfl (by decide)
    (by decide) (Or.inr (by rfl))⟩

/-- C3 counterexample: a concrete successful `login` whose composite token
has a 16-character sessionId segment (`randomBytes(8)` gives 8 bytes = 16 hex
characters) and a 60-character secret segment (`randomBytes(30)` gives 60 hex
characters), not 8 and 64 as claimed. -/
theorem C3_cex :
    login ⟨true, true⟩ rngW saltW dbW ("alice".toList) ("S3cret!".toList) =
      Except.ok (some tokW,
        ⟨[userW], [⟨bytesToHex (rngW 8), bcryptHash 10 saltW (bytesToHex (rngW 30)),
          uuidW⟩]⟩) ∧
    ((jsSplit '.' tokW).headD []).length = 16 ∧
    ((jsSplit '.' tokW).headD []).length ≠ 8 ∧
    ((jsSplit '.' tokW).getD 1 []).length = 60 ∧
    ((jsSplit '.' tokW).getD 1 []).length ≠ 64 :=
  ⟨by rfl, by decide, by decide, by decide, by decide⟩

/-- C3 (amended): a successful `login` returns the composite
`<sessionId>.<secret>` where the sessionId is the hex rendering of
`randomBytes(8)` — 16 hex characters — and the secret the hex rendering of
`randomBytes(30)` — 60 hex characters — with the sessionId fixed-width hex
and the secret strictly longer, both drawn from the CSPRNG oracle. -/
theorem C3_token_shape (a : Auth) (rng : Nat → List (Fin 256)) (salt : JsStr)
    (db : DB) (username password : JsStr) (u : UserRow)
    (hk : a.hasKnex = true) (hgood : GoodRng rng)
    (hu : username.isEmpty = false) (hp : password.isEmpty = false)
    (hfind : findUserByUsername db username = some u)
    (hcmp : bcryptCompare password u.password = true) :
    ∃ db2, login a rng salt db username password =
        Except.ok (some (bytesToHex (rng 8) ++ '.' :: bytesToHex (rng 30)), db2) ∧
      (bytesToHex (rng 8)).length = 16 ∧
      (bytesToHex (rng 30)).length = 60 ∧
      (∀ c ∈ bytesToHex (rng 8), c ∈ hexChars) ∧
      (∀ c ∈ bytesToHex (rng 30), c ∈ hexChars) ∧
      (bytesToHex (rng 8)).length < (bytesToHex (rng 30)).length := by
  refine ⟨{ db with sessions := db.sessions ++
      [⟨bytesToHex (rng 8),
        if a.tokenHashing then bcryptHash 10 salt (bytesToHex (rng 30))
        else bytesToHex (rng 30), u.uuid⟩] }, ?_, ?_, ?_, ?_, ?_, ?_⟩
  · simp [login, hk, hu, hp, hfind, hcmp]
  · rw [length_bytesToHex, hgood 8]
  · rw [length_bytesToHex, hgood 30]
  · exact fun c hc => mem_hexChars_of_mem_bytesToHex hc
  · exact fun c hc => mem_hexChars_of_mem_bytesToHex hc
  · rw [length_bytesToHex, length_bytesToHex, hgood 8, hgood 30]; omega

/-- Witness for C3 (amended) at the concrete scenario store. -/
theorem C3_token_shape_witness :
    GoodRng rngW ∧
    (∃ db2, login ⟨true, true⟩ rngW saltW dbW ("alice".toList) ("S3cret!".toList) =
        Except.ok (some (bytesToHex (rngW 8) ++ '.' :: bytesToHex (rngW 30)), db2) ∧
      (bytesToHex (rngW 8)).length = 16 ∧
      (bytesToHex (rngW 30)).length = 60 ∧
      (∀ c ∈ bytesToHex (rngW 8), c ∈ hexChars) ∧
      (∀ c ∈ bytesToHex (rngW 30), c ∈ hexChars) ∧
      (bytesToHex (rngW 8)).length < (bytesToHex (rngW 30)).length) :=
  ⟨fun n => by simp [rngW],
   C3_token_shape ⟨true, true⟩ rngW saltW dbW ("alice".toList) ("S3cret!".toList)
     userW rfl (fun n => by simp [rngW]) (by decide) (by decide) (by decide) (by decide)⟩

/-- C4: calling `register` again for an already-registered username returns
the conflict result and leaves the store untouched; with exactly one identity
row for that username beforehand, exactly one remains afterwards (the
returned state is `db` itself). -/
theorem C4_register_duplicate (a : Auth) (uuid salt : JsStr) (db : DB)
    (username pwd : JsStr)
    (hk : a.hasKnex = true) (hu : username.isEmpty = false) (hp : pwd.isEmpty = false)
    (hex : (findUserByUsername db username).isSome = true)
    (hone : db.users.countP (fun r => r.username == username) = 1) :
    register a uuid salt db username pwd = Except.ok (RegResult.conflict, db) ∧
    db.users.countP (fun r => r.username == username) = 1 := by
  refine ⟨?_, hone⟩
  simp [register, userExists, hk, hu, hp, hex]

/-- Witness for C4: re-registering `alice` against the concrete store. -/
theorem C4_register_duplicate_witness :
    (findUserByUsername dbW ("alice".toList)).isSome = true ∧
    dbW.users.countP (fun r => r.username == "alice".toList) = 1 ∧
    register ⟨true, true⟩ uuidW saltW dbW ("alice".toList) ("other".toList) =
      Except.ok (RegResult.conflict, dbW) :=
  ⟨by decide, by decide,
   (C4_register_duplicate ⟨true, true⟩ uuidW saltW dbW ("alice".toList)
     ("other".toList) rfl (by decide) (by decide) (by decide) (by decide)).1⟩

/-- C5: `login` with a wrong secret for an existing username returns exactly
the same value as `login` with a nonexistent username — both reduce to the
generic `false` (modelled `Except.ok (none, db)`), with the store untouched,
for every store state. -/
theorem C5_login_failure_indistinguishable (a : Auth) (rng : Nat → List (Fin 256))
    (salt : JsStr) (db : DB) (u1 p1 u2 p2 : JsStr) (usr : UserRow)
    (hk : a.hasKnex = true)
    (h1u : u1.isEmpty = false) (h1p : p1.isEmpty = false)
    (h2u : u2.isEmpty = false) (h2p : p2.isEmpty = false)
    (hfind1 : findUserByUsername db u1 = some usr)
    (hwrong : bcryptCompare p1 usr.password = false)
    (habsent : findUserByUsername db u2 = none) :
    login a rng salt db u1 p1 = login a rng salt db u2 p2 ∧
    login a rng salt db u1 p1 = Except.ok (none, db) := by
  have h1 : login a rng salt db u1 p1 = Except.ok (none, db) := by
    simp [login, hk, h1u, h1p, hfind1, hwrong]
  have h2 : login a rng salt db u2 p2 = Except.ok (none, db) := by
    simp [login, hk, h2u, h2p, habsent]
  exact ⟨h1.trans h2.symm, h1⟩

/-- Witness for C5: `("alice", "wrong")` versus `("nobody", "x")` against the
concrete store. -/
theorem C5_login_failure_indistinguishable_witness :
    (findUserByUsername dbW ("alice".toList) = some userW ∧
     bcryptCompare ("wrong".toList) userW.password = false ∧
     findUserByUsername dbW ("nobody".toList) = none) ∧
    login ⟨true, true⟩ rngW saltW dbW ("alice".toList) ("wrong".toList) =
      login ⟨true, true⟩ rngW saltW dbW ("nobody".toList) ("x".toList) :=
  ⟨⟨by decide, by decide, by decide⟩,
   (C5_login_failure_indistinguishable ⟨true, true⟩ rngW saltW dbW ("alice".toList)
     ("wrong".toList) ("nobody".toList) ("x".toList) userW rfl (by decide) (by decide)
     (by decide) (by decide) (by decide) (by decide) (by decide)).1⟩

/-- C6: after `logout sid` the session rows for `sid` are gone, so
`verifyToken` returns false on every composite token whose first `.`-segment
is that `sid`; a second `logout` with the same id also succeeds and leaves
the state as it is (idempotence, no error on a non-existent session). -/
theorem C6_logout_revokes (a : Auth) (db : DB) (sid : JsStr)
    (hk : a.hasKnex = true) (hs : sid.isEmpty = false) :
    ∃ db2, logout a db sid = Except.ok db2 ∧
      (∀ t : JsStr, t.isEmpty = false → (jsSplit '.' t).headD [] = sid →
        verifyToken a db2 t = Except.ok false) ∧
      logout a db2 sid = Except.ok db2 := by
  refine ⟨{ db with sessions := db.sessions.filter (fun s => !(s.session_id == sid)) },
    by simp [logout, hk, hs], ?_, ?_⟩
  · intro t hne hhead
    have hnone : findSessionById
        { db with sessions := db.sessions.filter (fun s => !(s.session_id == sid)) }
        ((jsSplit '.' t).headD []) = none := by
      show (db.sessions.filter _).find? _ = none
      rw [List.find?_eq_none]
      intro x hx
      have := (List.mem_filter.mp hx).2
      simp only [hhead]
      simpa using this
    simp only [verifyToken, hk, Bool.not_true, Bool.false_eq_true, if_false, hne, hnone]
  · simp [logout, hk, hs, List.filter_filter]

/-- Witness for C6: logging out the session created by the concrete login. -/
theorem C6_logout_revokes_witness :
    (bytesToHex (rngW 8)).isEmpty = false ∧
    (∃ db2, logout ⟨true, true⟩
        ⟨[userW], [⟨bytesToHex (rngW 8), bcryptHash 10 saltW (bytesToHex (rngW 30)),
          uuidW⟩]⟩ (bytesToHex (rngW 8)) = Except.ok db2 ∧
      (∀ t : JsStr, t.isEmpty = false →
        (jsSplit '.' t).headD [] = bytesToHex (rngW 8) →
        verifyToken ⟨true, true⟩ db2 t = Except.ok false) ∧
      logout ⟨true, true⟩ db2 (bytesToHex (rngW 8)) = Except.ok db2) :=
  ⟨by decide,
   C6_logout_revokes ⟨true, true⟩
     ⟨[userW], [⟨bytesToHex (rngW 8), bcryptHash 10 saltW (bytesToHex (rngW 30)),
       uuidW⟩]⟩ (bytesToHex (rngW 8)) rfl (by decide)⟩

/-- C7: every identity row added by `register` stores a bcrypt hash that
differs from the plaintext secret, and with token hashing enabled every
session row added by `login` stores a token representation that differs from
the plaintext token secret (`randomBytes(30)` in hex, the secret segment of
the composite). -/
theorem C7_stored_hashes_ne_plaintext :
    (∀ (a : Auth) (uuid salt : JsStr) (db : DB) (username pwd : JsStr)
       (res : RegResult) (db2 : DB),
       register a uuid salt db username pwd = Except.ok (res, db2) →
       ∀ r ∈ db2.users, r ∉ db.users → r.password ≠ pwd) ∧
    (∀ (a : Auth) (rng : Nat → List (Fin 256)) (salt : JsStr) (db : DB)
       (username pwd : JsStr) (res : Option JsStr) (db2 : DB),
       a.tokenHashing = true →
       login a rng salt db username pwd = Except.ok (res, db2) →
       ∀ s ∈ db2.sessions, s ∉ db.sessions → s.token ≠ bytesToHex (rng 30)) := by
  constructor
  · intro a uuid salt db username pwd res db2 hreg r hr hnotin
    simp only [register] at hreg
    split at hreg
    · simp at hreg
    · split at hreg
      · simp at hreg
      · split at hreg
        · simp at hreg
        · cases hreg
          exact absurd hr hnotin
        · cases hreg
          rcases List.mem_append.mp hr with hold | hnew
          · exact absurd hold hnotin
          · rw [List.mem_singleton.mp hnew]
            exact bcryptHash_ne 12 salt pwd
  · intro a rng salt db username pwd res db2 hhash hlog s hs hnotin
    simp only [login, hhash, reduceIte] at hlog
    split at hlog
    · simp at hlog
    · split at hlog
      · simp at hlog
      · split at hlog
        · cases hlog
          exact absurd hs hnotin
        · split at hlog
          · cases hlog
            exact absurd hs hnotin
          · cases hlog
            rcases List.mem_append.mp hs with hold | hnew
            · exact absurd hold hnotin
            · rw [List.mem_singleton.mp hnew]
              exact bcryptHash_ne 10 salt (bytesToHex (rng 30))

/-- Witness for C7: registering `("bob", "pw")` into an empty store, and the
concrete login's session row. -/
theorem C7_stored_hashes_ne_plaintext_witness :
    (register ⟨true, true⟩ uuidW saltW ⟨[], []⟩ ("bob".toList) ("pw".toList) =
       Except.ok (RegResult.success, dbBob) ∧
     ∀ r ∈ dbBob.users, r ∉ (⟨[], []⟩ : DB).users → r.password ≠ "pw".toList) ∧
    (login ⟨true, true⟩ rngW saltW dbW ("alice".toList) ("S3cret!".toList) =
       Except.ok (some tokW,
         ⟨[userW], [⟨bytesToHex (rngW 8), bcryptHash 10 saltW (bytesToHex (rngW 30)),
           uuidW⟩]⟩) ∧
     ∀ s ∈ (DB.mk [userW] [⟨bytesToHex (rngW 8),
         bcryptHash 10 saltW (bytesToHex (rngW 30)), uuidW⟩]).sessions,
       s ∉ dbW.sessions → s.token ≠ bytesToHex (rngW 30)) :=
  ⟨⟨by rfl,
    C7_stored_hashes_ne_plaintext.1 ⟨true, true⟩ uuidW saltW ⟨[], []⟩ ("bob".toList)
      ("pw".toList) RegResult.success dbBob (by rfl)⟩,
   ⟨by rfl,
    C7_stored_hashes_ne_plaintext.2 ⟨true, true⟩ rngW saltW dbW ("alice".toList)
      ("S3cret!".toList) (some tokW)
      ⟨[userW], [⟨bytesToHex (rngW 8), bcryptHash 10 saltW (bytesToHex (rngW 30)),
        uuidW⟩]⟩ rfl (by rfl)⟩⟩

/-- C8: each of `register`, `login`, `verifyToken`, `logout` called with a
missing (empty) required argument throws the precondition error — whatever
the knex flag — and the outcome does not depend on the store state at all
(the check runs before any store access); the error branch carries no state,
so the store is left unchanged. -/
theorem C8_missing_args :
    (∀ (a : Auth) (uuid salt : JsStr) (db : DB) (u p : JsStr),
       (u.isEmpty || p.isEmpty) = true →
       (∃ e, register a uuid salt db u p = Except.error e) ∧
       ∀ db2, register a uuid salt db2 u p = register a uuid salt db u p) ∧
    (∀ (a : Auth) (rng : Nat → List (Fin 256)) (salt : JsStr) (db : DB) (u p : JsStr),
       (u.isEmpty || p.isEmpty) = true →
       (∃ e, login a rng salt db u p = Except.error e) ∧
       ∀ db2, login a rng salt db2 u p = login a rng salt db u p) ∧
    (∀ (a : Auth) (db : DB) (t : JsStr), t.isEmpty = true →
       (∃ e, verifyToken a db t = Except.error e) ∧
       ∀ db2, verifyToken a db2 t = verifyToken a db t) ∧
    (∀ (a : Auth) (db : DB) (s : JsStr), s.isEmpty = true →
       (∃ e, logout a db s = Except.error e) ∧
       ∀ db2, logout a db2 s = logout a db s) := by
  refine ⟨?_, ?_, ?_, ?_⟩
  · intro a uuid salt db u p h
    cases hknex : a.hasKnex
    · exact ⟨⟨knexMsg, by simp [register, hknex]⟩, fun db2 => by simp [register, hknex]⟩
    · exact ⟨⟨"Username and password must be provided", by simp [register, hknex, h]⟩,
        fun db2 => by simp [register, hknex, h]⟩
  · intro a rng salt db u p h
    cases hknex : a.hasKnex
    · exact ⟨⟨knexMsg, by simp [login, hknex]⟩, fun db2 => by simp [login, hknex]⟩
    · exact ⟨⟨"Username and password must be provided", by simp [login, hknex, h]⟩,
        fun db2 => by simp [login, hknex, h]⟩
  · intro a db t h
    cases hknex : a.hasKnex
    · exact ⟨⟨knexMsg, by simp [verifyToken, hknex]⟩,
        fun db2 => by simp [verifyToken, hknex]⟩
    · exact ⟨⟨"Token string must be provided", by simp [verifyToken, hknex, h]⟩,
        fun db2 => by simp [verifyToken, hknex, h]⟩
  · intro a db s h
    cases hknex : a.hasKnex
    · exact ⟨⟨knexMsg, by simp [logout, hknex]⟩, fun db2 => by simp [logout, hknex]⟩
    · exact ⟨⟨"SID must be provided", by simp [logout, hknex, h]⟩,
        fun db2 => by simp [logout, hknex, h]⟩

/-- Witness for C8: the empty username / token / sid against the concrete
store. -/
theorem C8_missing_args_witness :
    ((([] : JsStr).isEmpty || ("pw".toList).isEmpty) = true ∧
     (∃ e, register ⟨true, true⟩ uuidW saltW dbW [] ("pw".toList) = Except.error e)) ∧
    (∃ e, login ⟨true, true⟩ rngW saltW dbW [] ("pw".toList) = Except.error e) ∧
    (∃ e, verifyToken ⟨true, true⟩ dbW [] = Except.error e) ∧
    (∃ e, logout ⟨true, true⟩ dbW [] = Except.error e) :=
  ⟨⟨by decide,
    (C8_missing_args.1 ⟨true, true⟩ uuidW saltW dbW [] ("pw".toList) (by decide)).1⟩,
   (C8_missing_args.2.1 ⟨true, true⟩ rngW saltW dbW [] ("pw".toList) (by decide)).1,
   (C8_missing_args.2.2.1 ⟨true, true⟩ dbW [] (by decide)).1,
   (C8_missing_args.2.2.2 ⟨true, true⟩ dbW [] (by decide)).1⟩

/-- C9: for every request, the middleware either responds with the single
generic unauthorized outcome — the one value every failure path, including a
caught internal exception, collapses to — or calls `next()` having attached
exactly `{username, id, token}` taken from a stored user row and the
presented bearer token; the stored `password` / session `token` fields never
appear in the attached context. -/
theorem C9_middleware_outcomes (a : Auth) (db : DB) (hdr : Option JsStr) :
    express_middleware a db hdr = MwOutcome.unauthorized ∨
    ∃ u ∈ db.users, ∃ tk : JsStr,
      (hdr.bind (fun h => (jsSplit ' ' h).get? 1)) = some tk ∧
      express_middleware a db hdr = MwOutcome.success ⟨u.username, u.uuid, tk⟩ := by
  unfold express_middleware
  cases htok : hdr.bind (fun h => (jsSplit ' ' h).get? 1) with
  | none => exact Or.inl rfl
  | some token =>
    cases hemp : token.isEmpty with
    | true => left; simp [hemp]
    | false =>
      simp only [hemp, Bool.false_eq_true, if_false]
      cases hver : verifyToken a db token with
      | error e => left; rfl
      | ok b =>
        cases b with
        | false => left; rfl
        | true =>
          cases hget : getUserIdFromSessionId a db ((jsSplit '.' token).headD []) with
          | error e => left; rfl
          | ok o =>
            cases o with
            | none => left; rfl
            | some confirmedUuid =>
              cases hfind : db.users.find? (fun u => u.uuid == confirmedUuid) with
              | none => left; simp [hfind]
              | some user =>
                right
                refine ⟨user, List.mem_of_find?_eq_some hfind, token, rfl, ?_⟩
                have huuid : user.uuid = confirmedUuid := by
                  have := List.find?_some hfind
                  simpa using this
                simp [hfind, huuid]

/-- C10: a `login` that fails authentication — the username is absent, or the
stored hash does not verify the password — returns the generic failure and
the returned store state is the input state: no session row is inserted. -/
theorem C10_failed_login_frame (a : Auth) (rng : Nat → List (Fin 256)) (salt : JsStr)
    (db : DB) (u p : JsStr)
    (hk : a.hasKnex = true) (hu : u.isEmpty = false) (hp : p.isEmpty = false)
    (hfail : ∀ usr, findUserByUsername db u = some usr →
      bcryptCompare p usr.password = false) :
    login a rng salt db u p = Except.ok (none, db) := by
  cases hfind : findUserByUsername db u with
  | none => simp [login, hk, hu, hp, hfind]
  | some usr => simp [login, hk, hu, hp, hfind, hfail usr hfind]

/-- Witness for C10: an unknown username against the concrete store. -/
theorem C10_failed_login_frame_witness :
    findUserByUsername dbW ("nobody".toList) = none ∧
    login ⟨true, true⟩ rngW saltW dbW ("nobody".toList) ("x".toList) =
      Except.ok (none, dbW) :=
  ⟨by decide,
   C10_failed_login_frame ⟨true, true⟩ rngW saltW dbW ("nobody".toList) ("x".toList)
     rfl (by decide) (by decide)
     (fun usr h => by
       rw [show findUserByUsername dbW ("nobody".toList) = none from by decide] at h
       simp at h)⟩
